import Mathlib

set_option maxRecDepth 1000000

/-!
Verification of the compliance_monitor discovery/dedup/analysis pipeline.

This file shallowly embeds the core functions of the repository
(`spiders.py`, `analysis_utils.py`, `app.py`, `models.py`) as executable
Lean definitions and proves the specification claims about them.

Machine integers are modelled as `Nat` with explicit `% 2^32` masking where
the Python code relies on fixed-width hashing arithmetic (MD5, SHA-256).
Strings are modelled as Lean `String`/`List Char`; `encode()` is modelled by
an explicit UTF-8 byte encoder.  Character classification functions
(`isalnum`, `isspace`, `lower`) are modelled over their ASCII behaviour plus
the standard Unicode whitespace code points used by `str.split`/`strip`.
-/

/-! ### Byte-level string encoding (Python `str.encode()`, UTF-8) -/

/-- UTF-8 encoding of a single character as a list of byte values. -/
def utf8Bytes (c : Char) : List Nat :=
  let n := c.toNat
  if n < 128 then [n]
  else if n < 2048 then [192 + n / 64, 128 + n % 64]
  else if n < 65536 then [224 + n / 4096, 128 + n / 64 % 64, 128 + n % 64]
  else [240 + n / 262144, 128 + n / 4096 % 64, 128 + n / 64 % 64, 128 + n % 64]

/-- UTF-8 encoding of a string as a list of byte values (Python `s.encode()`). -/
def strBytes (s : String) : List Nat :=
  (s.data.map utf8Bytes).flatten

/-! ### Hex rendering of digests (`hexdigest()`) -/

/-- Lowercase hexadecimal digit for a value below 16. -/
def hexDigit (n : Nat) : Char :=
  if n < 10 then Char.ofNat (48 + n) else Char.ofNat (87 + n)

/-- Two lowercase hex characters for one byte. -/
def byteHex (b : Nat) : List Char :=
  [hexDigit (b / 16 % 16), hexDigit (b % 16)]

/-- Hex string of a byte list, as produced by `hexdigest()`. -/
def bytesHex (l : List Nat) : String :=
  ⟨(l.map byteHex).flatten⟩

/-- Character is a lowercase hexadecimal digit. -/
def isHexChar (c : Char) : Bool :=
  (48 ≤ c.toNat && c.toNat ≤ 57) || (97 ≤ c.toNat && c.toNat ≤ 102)

/-! ### 32-bit arithmetic helpers -/

/-- Mask to 32 bits. -/
def mask32 (x : Nat) : Nat := x % 4294967296

/-- Addition modulo 2^32. -/
def add32 (a b : Nat) : Nat := (a + b) % 4294967296

/-- Bitwise complement within 32 bits. -/
def not32 (x : Nat) : Nat := x ^^^ 4294967295

/-- Left rotation of a 32-bit value by `n` bits. -/
def rotl32 (x n : Nat) : Nat :=
  mask32 ((x % 2 ^ (32 - n)) * 2 ^ n + x / 2 ^ (32 - n))

/-- Little-endian serialization of a 32-bit word into 4 bytes. -/
def wordBytesLE (w : Nat) : List Nat :=
  [w % 256, w / 256 % 256, w / 65536 % 256, w / 16777216 % 256]

/-- Little-endian serialization of a 64-bit length into 8 bytes. -/
def lenBytesLE (n : Nat) : List Nat :=
  [n % 256, n / 256 % 256, n / 65536 % 256, n / 16777216 % 256,
   n / 4294967296 % 256, n / 1099511627776 % 256,
   n / 281474976710656 % 256, n / 72057594037927936 % 256]

/-- Big-endian serialization of a 32-bit word into 4 bytes. -/
def wordBytesBE (w : Nat) : List Nat :=
  [w / 16777216 % 256, w / 65536 % 256, w / 256 % 256, w % 256]

/-- Big-endian serialization of a 64-bit length into 8 bytes. -/
def lenBytesBE (n : Nat) : List Nat :=
  [n / 72057594037927936 % 256, n / 281474976710656 % 256,
   n / 1099511627776 % 256, n / 4294967296 % 256,
   n / 16777216 % 256, n / 65536 % 256, n / 256 % 256, n % 256]

/-- Group a byte list into little-endian 32-bit words. -/
def bytesToWordsLE : List Nat → List Nat
  | b0 :: b1 :: b2 :: b3 :: rest =>
      (b0 + 256 * (b1 + 256 * (b2 + 256 * b3))) :: bytesToWordsLE rest
  | _ => []

/-- Group a byte list into big-endian 32-bit words. -/
def bytesToWordsBE : List Nat → List Nat
  | b0 :: b1 :: b2 :: b3 :: rest =>
      (b3 + 256 * (b2 + 256 * (b1 + 256 * b0))) :: bytesToWordsBE rest
  | _ => []

/-- Split a byte list into 64-byte chunks (structural recursion on a fuel
bound so that the kernel can evaluate it). -/
def chunks64Aux : Nat → List Nat → List (List Nat)
  | 0, _ => []
  | _, [] => []
  | fuel + 1, b :: rest => ((b :: rest).take 64) :: chunks64Aux fuel ((b :: rest).drop 64)

/-- Split a byte list into 64-byte chunks. -/
def chunks64 (l : List Nat) : List (List Nat) :=
  chunks64Aux l.length l

/-! ### MD5 (`hashlib.md5`) -/

/-- MD5 per-round sine-derived constant table. -/
def md5K : List Nat :=
  [3614090360, 3905402710, 606105819, 3250441966,
   4118548399, 1200080426, 2821735955, 4249261313,
   1770035416, 2336552879, 4294925233, 2304563134,
   1804603682, 4254626195, 2792965006, 1236535329,
   4129170786, 3225465664, 643717713, 3921069994,
   3593408605, 38016083, 3634488961, 3889429448,
   568446438, 3275163606, 4107603335, 1163531501,
   2850285829, 4243563512, 1735328473, 2368359562,
   4294588738, 2272392833, 1839030562, 4259657740,
   2763975236, 1272893353, 4139469664, 3200236656,
   681279174, 3936430074, 3572445317, 76029189,
   3654602809, 3873151461, 530742520, 3299628645,
   4096336452, 1126891415, 2878612391, 4237533241,
   1700485571, 2399980690, 4293915773, 2240044497,
   1873313359, 4264355552, 2734768916, 1309151649,
   4149444226, 3174756917, 718787259, 3951481745]

def md5S : List Nat :=
  [7, 12, 17, 22, 7, 12, 17, 22, 7, 12, 17, 22, 7, 12, 17, 22,
   5, 9, 14, 20, 5, 9, 14, 20, 5, 9, 14, 20, 5, 9, 14, 20,
   4, 11, 16, 23, 4, 11, 16, 23, 4, 11, 16, 23, 4, 11, 16, 23,
   6, 10, 15, 21, 6, 10, 15, 21, 6, 10, 15, 21, 6, 10, 15, 21]

/-- MD5 round mixing function (F, G, H, I by round quarter). -/
def md5F (i b c d : Nat) : Nat :=
  if i < 16 then (b &&& c) ||| (not32 b &&& d)
  else if i < 32 then (d &&& b) ||| (not32 d &&& c)
  else if i < 48 then b ^^^ c ^^^ d
  else c ^^^ (b ||| not32 d)

/-- MD5 message word index for round `i`. -/
def md5G (i : Nat) : Nat :=
  if i < 16 then i
  else if i < 32 then (5 * i + 1) % 16
  else if i < 48 then (3 * i + 5) % 16
  else (7 * i) % 16

/-- MD5 compression of one 16-word chunk into the running state. -/
def md5ProcessChunk (h : Nat × Nat × Nat × Nat) (m : List Nat) : Nat × Nat × Nat × Nat :=
  let step := fun (st : Nat × Nat × Nat × Nat) (i : Nat) =>
    let (a, b, c, d) := st
    let f := mask32 (md5F i b c d + a + md5K.getD i 0 + m.getD (md5G i) 0)
    (d, add32 b (rotl32 f (md5S.getD i 0)), b, c)
  match h, (List.range 64).foldl step h with
  | (a0, b0, c0, d0), (a, b, c, d) => (add32 a0 a, add32 b0 b, add32 c0 c, add32 d0 d)

/-- MD5 padding: append 0x80, zero-fill to 56 mod 64, then the 64-bit
little-endian bit length. -/
def md5Pad (msg : List Nat) : List Nat :=
  let padZeros := (119 - msg.length % 64) % 64
  msg ++ [128] ++ List.replicate padZeros 0 ++ lenBytesLE ((8 * msg.length) % 18446744073709551616)

/-- MD5 digest of a byte list, as 16 bytes. -/
def md5Bytes (msg : List Nat) : List Nat :=
  match (chunks64 (md5Pad msg)).foldl
      (fun h ch => md5ProcessChunk h (bytesToWordsLE ch))
      (1732584193, 4023233417, 2562383102, 271733878) with
  | (a, b, c, d) => wordBytesLE a ++ wordBytesLE b ++ wordBytesLE c ++ wordBytesLE d

/-- MD5 hex digest of a byte list (`hashlib.md5(x).hexdigest()`). -/
def md5Hex (msg : List Nat) : String :=
  bytesHex (md5Bytes msg)

/-! ### `BaseSpider.generate_regulation_id` (spiders.py lines 26-31) -/

/-- Python truthiness of the optional `date` argument: `None` and the empty
string are falsy. -/
def pyDateTruthy : Option String → Bool
  | none => false
  | some d => !(d == "")

/-- The `identifier` string built by `generate_regulation_id`:
`"{source}_{ref_number}_{date}"`, with the `NODATE` sentinel when the date
is missing. -/
def joinedIdentifier (source ref_number : String) (date : Option String) : String :=
  if pyDateTruthy date then
    source ++ "_" ++ ref_number ++ "_" ++ date.getD ""
  else
    source ++ "_" ++ ref_number ++ "_NODATE"

/-- Shallow embedding of `BaseSpider.generate_regulation_id`: build
`"{source}_{ref_number}_{date}"` (or the `_NODATE` sentinel form when the
date is missing) and take the MD5 hex digest of its UTF-8 encoding.  The
`date` argument is the string rendering of the Python date (`str(date)`),
or `none` for `None`. -/
def generate_regulation_id (source ref_number : String) (date : Option String) : String :=
  md5Hex (strBytes (joinedIdentifier source ref_number date))

/-! ### SHA-256 (`hashlib.sha256`) -/

/-- Right rotation of a 32-bit value by `n` bits. -/
def rotr32 (x n : Nat) : Nat :=
  mask32 (x / 2 ^ n + (x % 2 ^ n) * 2 ^ (32 - n))

/-- SHA-256 round constant table. -/
def sha256K : List Nat :=
  [1116352408, 1899447441, 3049323471, 3921009573,
   961987163, 1508970993, 2453635748, 2870763221,
   3624381080, 310598401, 607225278, 1426881987,
   1925078388, 2162078206, 2614888103, 3248222580,
   3835390401, 4022224774, 264347078, 604807628,
   770255983, 1249150122, 1555081692, 1996064986,
   2554220882, 2821834349, 2952996808, 3210313671,
   3336571891, 3584528711, 113926993, 338241895,
   666307205, 773529912, 1294757372, 1396182291,
   1695183700, 1986661051, 2177026350, 2456956037,
   2730485921, 2820302411, 3259730800, 3345764771,
   3516065817, 3600352804, 4094571909, 275423344,
   430227734, 506948616, 659060556, 883997877,
   958139571, 1322822218, 1537002063, 1747873779,
   1955562222, 2024104815, 2227730452, 2361852424,
   2428436474, 2756734187, 3204031479, 3329325298]

def sha256H0 : List Nat :=
  [1779033703, 3144134277, 1013904242, 2773480762,
   1359893119, 2600822924, 528734635, 1541459225]

def sha256Schedule (w16 : List Nat) : List Nat :=
  (List.range 48).foldl
    (fun w _ =>
      let i := w.length
      let w15 := w.getD (i - 15) 0
      let w2 := w.getD (i - 2) 0
      let s0 := rotr32 w15 7 ^^^ rotr32 w15 18 ^^^ (w15 / 8)
      let s1 := rotr32 w2 17 ^^^ rotr32 w2 19 ^^^ (w2 / 1024)
      w ++ [(w.getD (i - 16) 0 + s0 + w.getD (i - 7) 0 + s1) % 4294967296])
    w16

/-- SHA-256 compression of one chunk into the running 8-word state. -/
def sha256ProcessChunk (hs : List Nat) (chunkWords : List Nat) : List Nat :=
  let w := sha256Schedule chunkWords
  let step := fun (st : List Nat) (i : Nat) =>
    match st with
    | [a, b, c, d, e, f, g, h] =>
        let s1 := rotr32 e 6 ^^^ rotr32 e 11 ^^^ rotr32 e 25
        let ch := (e &&& f) ^^^ (not32 e &&& g)
        let t1 := (h + s1 + ch + sha256K.getD i 0 + w.getD i 0) % 4294967296
        let s0 := rotr32 a 2 ^^^ rotr32 a 13 ^^^ rotr32 a 22
        let mj := (a &&& b) ^^^ (a &&& c) ^^^ (b &&& c)
        let t2 := (s0 + mj) % 4294967296
        [(t1 + t2) % 4294967296, a, b, c, (d + t1) % 4294967296, e, f, g]
    | other => other
  let fin := (List.range 64).foldl step hs
  List.zipWith (fun x y => (x + y) % 4294967296) hs fin

/-- SHA-256 padding: append 0x80, zero-fill to 56 mod 64, then the 64-bit
big-endian bit length. -/
def sha256Pad (msg : List Nat) : List Nat :=
  let padZeros := (119 - msg.length % 64) % 64
  msg ++ [128] ++ List.replicate padZeros 0 ++ lenBytesBE ((8 * msg.length) % 18446744073709551616)

/-- SHA-256 digest of a byte list, as 32 bytes. -/
def sha256Bytes (msg : List Nat) : List Nat :=
  (((chunks64 (sha256Pad msg)).foldl
      (fun h ch => sha256ProcessChunk h (bytesToWordsBE ch))
      sha256H0).map wordBytesBE).flatten

/-- SHA-256 hex digest of a byte list (`hashlib.sha256(x).hexdigest()`). -/
def sha256Hex (msg : List Nat) : String :=
  bytesHex (sha256Bytes msg)

/-! ### `FBRSpider.hash_urls` (spiders.py lines 385-391) -/

/-- Python `sorted` on strings: the unique ascending reordering under the
code-point lexicographic order (modelled by insertion sort, which produces
the same list). -/
def sortStrings (l : List String) : List String :=
  List.insertionSort (· ≤ ·) l

/-- Shallow embedding of `FBRSpider.hash_urls`: feed each URL of the sorted
list into one running SHA-256 (equivalently, hash the concatenation of the
UTF-8 encodings of the sorted URLs) and return the hex digest. -/
def hash_urls (urls : List String) : String :=
  sha256Hex (((sortStrings urls).map strBytes).flatten)

/-! ### Python character/string primitives used by analysis_utils.py -/

/-- Python `str.isspace` / whitespace set used by `str.split()` and
`str.strip()` (ASCII whitespace, the C0 separators, NEL, NBSP and the
Unicode space code points). -/
def pyIsSpaceChar (c : Char) : Bool :=
  let n := c.toNat
  n = 32 || (9 ≤ n && n ≤ 13) || (28 ≤ n && n ≤ 31) || n = 133 || n = 160 ||
  n = 5760 || (8192 ≤ n && n ≤ 8202) || n = 8232 || n = 8233 || n = 8239 ||
  n = 8287 || n = 12288

/-- Python `str.isalnum` on a character, modelled over ASCII letters and
digits. -/
def pyIsAlnum (c : Char) : Bool :=
  c.isAlphanum

/-- Python `str.lower` on a character, modelled over ASCII. -/
def pyLowerChar (c : Char) : Char :=
  c.toLower

/-- Strip whitespace from both ends of a character list (Python
`str.strip()`). -/
def pyStripChars (l : List Char) : List Char :=
  List.rdropWhile pyIsSpaceChar (l.dropWhile pyIsSpaceChar)

/-- Strip whitespace from both ends of a string (Python `str.strip()`). -/
def pyStrip (s : String) : String :=
  ⟨pyStripChars s.data⟩

/-- Substring containment on character lists (Python `pat in text`). -/
def listContainsSub (pat : List Char) : List Char → Bool
  | [] => pat.isEmpty
  | c :: rest => pat.isPrefixOf (c :: rest) || listContainsSub pat rest

/-! ### `needs_ocr` (analysis_utils.py lines 47-72) -/

/-- Shallow embedding of `needs_ocr`: the OCR-fallback quality gate.
`len(clean) / total < 0.4` on exact rationals is rendered as
`5 * clean.length < 2 * total`. -/
def needs_ocr (extracted_text : String) : Bool :=
  if extracted_text = "" then true
  else
    let text := pyStripChars extracted_text.data
    if text.length < 200 then true
    else
      let total := text.length
      let clean := text.filter (fun ch => pyIsAlnum ch || pyIsSpaceChar ch)
      if 5 * clean.length < 2 * total then true
      else if listContainsSub "camscanner".data (text.map pyLowerChar) && text.length < 1000 then
        true
      else false

/-! ### `clean_for_bedrock` (analysis_utils.py lines 75-104) -/

/-- Character kept verbatim by the control-character replacement step. -/
def keepNlTab (c : Char) : Bool :=
  c = '\n' || c = '\t'

/-- Control character in the sense of `clean_for_bedrock`: code below 32 or
exactly 127. -/
def isCtrlChar (c : Char) : Bool :=
  c.toNat < 32 || c.toNat = 127

/-- Replacement step of `clean_for_bedrock`: keep newline and tab, replace
other control characters with a space, keep everything else. -/
def replaceCtrl (l : List Char) : List Char :=
  l.map (fun c => if keepNlTab c then c else if isCtrlChar c then ' ' else c)

/-- Python `str.split()` with no separator: split on runs of whitespace,
dropping empty pieces.  The accumulator holds the current word reversed. -/
def pySplitAux : List Char → List Char → List (List Char)
  | [], cur => if cur.isEmpty then [] else [cur.reverse]
  | c :: rest, cur =>
      if pyIsSpaceChar c then
        if cur.isEmpty then pySplitAux rest [] else cur.reverse :: pySplitAux rest []
      else pySplitAux rest (c :: cur)

/-- Python `str.split()` with no separator. -/
def pySplit (l : List Char) : List (List Char) :=
  pySplitAux l []

/-- Python `" ".join(words)` on character lists. -/
def joinSpace : List (List Char) → List Char
  | [] => []
  | [w] => w
  | w :: x :: ws => w ++ ' ' :: joinSpace (x :: ws)

/-- Shallow embedding of `clean_for_bedrock`: replace control characters
(except newline/tab) with spaces, collapse whitespace runs via
`" ".join(text.split())`, truncate to `max_chars`, and strip. -/
def clean_for_bedrock (text : String) (max_chars : Nat) : String :=
  if text = "" then ""
  else
    let cleaned := replaceCtrl text.data
    let collapsed := joinSpace (pySplit cleaned)
    let truncated := if collapsed.length > max_chars then collapsed.take max_chars else collapsed
    ⟨pyStripChars truncated⟩

/-! ### `extract_pdf_text` (analysis_utils.py lines 159-206)

The PDF reader and the Gemini OCR call are external collaborators; they are
modelled as inputs: `pages` is the list of per-page primary extraction
results (with `page.extract_text() or ""` already applied), `primaryFails`
models a `PdfReader` exception (caught in the source and treated as empty
text), and `ocr` is the value returned by `extract_pdf_text_with_gemini`
(`none` for a failed or empty OCR round, which never returns an empty
string). -/

/-- Page-accumulation loop of `extract_pdf_text`: collect page texts and
stop once the accumulated length reaches `max_chars`. -/
def buildChunksAux (mc : Nat) : List String → Nat → List String
  | [], _ => []
  | p :: rest, acc =>
      let acc' := acc + p.length
      p :: (if acc' ≥ mc then [] else buildChunksAux mc rest acc')

/-- Primary extraction result: joined page chunks, hard-truncated to
`max_chars`. -/
def extract_primary_text (pages : List String) (mc : Nat) : String :=
  let full := String.intercalate "\n\n" (buildChunksAux mc pages 0)
  if full.length > mc then ⟨full.data.take mc⟩ else full

/-- Shallow embedding of `extract_pdf_text` past the file-existence check. -/
def extract_pdf_text (primaryFails : Bool) (pages : List String) (ocr : Option String)
    (mc : Nat) (use_ocr : Bool) : Option String :=
  let full_text := if primaryFails then "" else extract_primary_text pages mc
  if full_text ≠ "" ∧ needs_ocr full_text = false then some (pyStrip full_text)
  else if use_ocr = false then
    (if pyStrip full_text ≠ "" then some (pyStrip full_text) else none)
  else
    match ocr with
    | some t => if t ≠ "" then some t else if full_text ≠ "" then some full_text else none
    | none => if full_text ≠ "" then some full_text else none

/-! ### Run orchestration (app.py `run_spiders` lines 106-138,
`scrape_regulations` lines 141-229)

A source crawler is modelled by the number of documents it persists before
returning or raising, and whether its deferred completes (`ok = true`) or
fails.  `run_spiders` chains the three crawls sequentially inside one
`inlineCallbacks` generator, so a failing crawl aborts the chain and the
exception propagates to the single `try/except` in `scrape_regulations`,
which logs it and continues with the rest of the run. -/

/-- One source crawler in a run: documents persisted and completion flag. -/
structure CrawlerRun where
  docs : Nat
  ok : Bool
deriving DecidableEq, Repr

/-- Sequential crawl chain of `run_spiders`: returns (documents persisted,
number of crawlers started, whether the chain raised).  A failing crawler
stops the chain; its documents persisted before the failure remain. -/
def run_spiders_model : List CrawlerRun → Nat × Nat × Bool
  | [] => (0, 0, false)
  | c :: rest =>
      if c.ok then
        match run_spiders_model rest with
        | (d, n, f) => (c.docs + d, n + 1, f)
      else (c.docs, 1, true)

/-- Run-level view of `scrape_regulations`: the spider chain runs inside
`try/except` (a spider error is logged and the run continues), the
new-document count is the table-count delta, and the log finalizes with
status `success` whenever the orchestration itself does not fail. -/
def scrape_regulations_model (crawlers : List CrawlerRun) : Nat × String :=
  match run_spiders_model crawlers with
  | (newDocs, _, _) => (newDocs, "success")

/-! ### Discovery/dedup store (spiders.py `regulation_exists` lines 66-76,
`FBRSpider.save_pdf` lines 433-470; uniqueness from models.py
`Regulation.regulation_id` `unique=True`)

The regulations table is modelled by its list of `regulation_id` values.
`save_pdf` ends in `db.session.add(...)`/`commit()` with no conflict
handler; the unique constraint makes the commit raise `IntegrityError` on a
duplicate id, so the insert is modelled in `Except`. -/

/-- Shallow embedding of `BaseSpider.regulation_exists`. -/
def regulation_exists (rid : String) (db : List String) : Bool :=
  db.contains rid

/-- Commit of `save_pdf`'s insert under the `regulation_id` unique
constraint: raises `IntegrityError` on a duplicate, else appends the row. -/
def save_pdf_commit (rid : String) (db : List String) : Except String (List String) :=
  if db.contains rid then
    Except.error "IntegrityError: UNIQUE constraint failed: regulations.regulation_id"
  else Except.ok (db ++ [rid])

/-- Discovery flow of `parse_api` for one item: skip when
`regulation_exists`, otherwise run `save_pdf`; an `IntegrityError` escapes
`save_pdf` and is caught by the crawl framework, leaving the store
unchanged. -/
def process_item (rid : String) (db : List String) : List String :=
  if regulation_exists rid db then db
  else
    match save_pdf_commit rid db with
    | Except.ok db' => db'
    | Except.error _ => db

/-! ### Purge tooling (app.py `simulate_new_regulations` lines 232-303) -/

/-- Row of the `regulations` table (fields relevant to purge). -/
structure RegRow where
  rowId : Nat
  regulation_id : String
  source : String
deriving DecidableEq, Repr

/-- Row of the `regulation_analyses` table: child of a regulation row. -/
structure AnalysisRow where
  analysisId : Nat
  regulation_rowId : Nat
deriving DecidableEq, Repr

/-- Row of the `page_hashes` table (change-detection record). -/
structure PageHashRow where
  page_url : String
  content_hash : String
deriving DecidableEq, Repr

/-- Persistent store state: the three tables touched by purge. -/
structure DBState where
  regulations : List RegRow
  analyses : List AnalysisRow
  pageHashes : List PageHashRow
deriving DecidableEq, Repr

/-- Step 2 of `simulate_new_regulations`: delete child `RegulationAnalysis`
rows whose `regulation_id` is among the selected row ids. -/
def deleteAnalysesFor (ids : List Nat) (st : DBState) : DBState :=
  { st with analyses := st.analyses.filter (fun a => !ids.contains a.regulation_rowId) }

/-- Step 3 of `simulate_new_regulations`: delete the parent `Regulation`
rows themselves. -/
def deleteRegulationsFor (ids : List Nat) (st : DBState) : DBState :=
  { st with regulations := st.regulations.filter (fun r => !ids.contains r.rowId) }

/-- Step 4 of `simulate_new_regulations`: delete the `PageHash` rows whose
key matches `LIKE "FBR:%"`, so the change detector cannot skip the feed. -/
def clearFBRPageHashes (st : DBState) : DBState :=
  { st with pageHashes := st.pageHashes.filter (fun p => !("FBR:".data.isPrefixOf p.page_url.data)) }

/-- Purge core of `simulate_new_regulations` on the selected regulation row
ids: child rows first, then parent rows, then the change-detection records;
the single `db.session.commit()` at the end makes the composite one
transaction, modelled as one state transition. -/
def simulate_new_regulations_purge (ids : List Nat) (st : DBState) : DBState :=
  clearFBRPageHashes (deleteRegulationsFor ids (deleteAnalysesFor ids st))

/-- Shallow embedding of `FBRSpider.get_stored_hash`. -/
def get_stored_hash (key : String) (st : DBState) : Option String :=
  (st.pageHashes.find? (fun p => p.page_url == key)).map PageHashRow.content_hash

/-- Skip gate of `FBRSpider.parse_api`: skip the feed page iff a stored
hash exists and equals the freshly computed one. -/
def fbr_page_unchanged_skip (dept current : String) (st : DBState) : Bool :=
  match get_stored_hash ("FBR:" ++ dept) st with
  | some h => h == current
  | none => false

/-- Referential-integrity invariant: every analysis row points at an
existing regulation row. -/
def analysesReferenceRegulations (st : DBState) : Prop :=
  ∀ a ∈ st.analyses, ∃ r ∈ st.regulations, a.regulation_rowId = r.rowId

/-! ### `BaseSpider.parse_date` (spiders.py lines 34-64)

`parse_date` strips the input, first tries the `/Date(ms)/` epoch pattern
(`datetime.fromtimestamp`, any exception swallowed), then tries twelve
`strptime` formats in order, and returns `None` when nothing matches.  The
`strptime` subset below mirrors CPython `_strptime`: `%d` and `%m` match
one or two digits per their regexes, `%Y` exactly four digits, `%B`/`%b`
case-insensitive month names, a space in the format one-or-more whitespace
characters, and the whole string must be consumed.  The resulting calendar
fields go through `datetime`'s range validation. -/

/-- Calendar date as produced by `datetime.date`. -/
structure PDate where
  year : Nat
  month : Nat
  day : Nat
deriving DecidableEq, Repr

/-- Gregorian leap-year rule. -/
def isLeapYear (y : Nat) : Bool :=
  y % 4 = 0 && (y % 100 ≠ 0 || y % 400 = 0)

/-- Number of days in a month. -/
def daysInMonth (y m : Nat) : Nat :=
  if m = 2 then (if isLeapYear y then 29 else 28)
  else if m = 4 || m = 6 || m = 9 || m = 11 then 30
  else 31

/-- Validity of a calendar date per the `datetime` constructor
(`MINYEAR = 1`, `MAXYEAR = 9999`, day within the month). -/
def dateValid (d : PDate) : Bool :=
  1 ≤ d.year && d.year ≤ 9999 && 1 ≤ d.month && d.month ≤ 12 &&
  1 ≤ d.day && d.day ≤ daysInMonth d.year d.month

/-- Construction of a date with `datetime`'s validation: `none` models the
`ValueError` raised on out-of-range fields. -/
def mkDate (y m d : Nat) : Option PDate :=
  if dateValid ⟨y, m, d⟩ then some ⟨y, m, d⟩ else none

/-- Numeric value of a digit character. -/
def digitVal (c : Char) : Nat := c.toNat - 48

/-- The `strptime` one-or-two-digit field (`%d` with `mx = 31`, `%m` with
`mx = 12`): a two-digit form with value in `1..mx`, else a single nonzero
digit. -/
def parseNum2 (mx : Nat) : List Char → Option (Nat × List Char)
  | c1 :: c2 :: rest =>
      if c1.isDigit && c2.isDigit then
        let v := digitVal c1 * 10 + digitVal c2
        if 1 ≤ v && v ≤ mx then some (v, rest)
        else if 1 ≤ digitVal c1 then some (digitVal c1, c2 :: rest)
        else none
      else if c1.isDigit && 1 ≤ digitVal c1 then some (digitVal c1, c2 :: rest)
      else none
  | [c1] => if c1.isDigit && 1 ≤ digitVal c1 then some (digitVal c1, []) else none
  | [] => none

/-- The `strptime` `%Y` field: exactly four digits. -/
def parseYear4 : List Char → Option (Nat × List Char)
  | a :: b :: c :: d :: rest =>
      if a.isDigit && b.isDigit && c.isDigit && d.isDigit then
        some (((digitVal a * 10 + digitVal b) * 10 + digitVal c) * 10 + digitVal d, rest)
      else none
  | _ => none

/-- Full English month names for `%B`. -/
def monthNamesFull : List (List Char × Nat) :=
  [("january".data, 1), ("february".data, 2), ("march".data, 3), ("april".data, 4),
   ("may".data, 5), ("june".data, 6), ("july".data, 7), ("august".data, 8),
   ("september".data, 9), ("october".data, 10), ("november".data, 11), ("december".data, 12)]

/-- Abbreviated English month names for `%b`. -/
def monthNamesAbbr : List (List Char × Nat) :=
  [("jan".data, 1), ("feb".data, 2), ("mar".data, 3), ("apr".data, 4),
   ("may".data, 5), ("jun".data, 6), ("jul".data, 7), ("aug".data, 8),
   ("sep".data, 9), ("oct".data, 10), ("nov".data, 11), ("dec".data, 12)]

/-- Case-insensitive month-name match at the head of the input. -/
def parseMonthName : List (List Char × Nat) → List Char → Option (Nat × List Char)
  | [], _ => none
  | (nm, v) :: rest, l =>
      if nm.isPrefixOf (l.map pyLowerChar) then some (v, l.drop nm.length)
      else parseMonthName rest l

/-- Match one literal character. -/
def expectChar (c : Char) : List Char → Option (List Char)
  | x :: rest => if x = c then some rest else none
  | [] => none

/-- Match one-or-more whitespace characters (a space in a `strptime`
format becomes `\s+`). -/
def expectSpaces : List Char → Option (List Char)
  | x :: rest => if pyIsSpaceChar x then some (rest.dropWhile pyIsSpaceChar) else none
  | [] => none

/-- Match a literal character sequence. -/
def expectLiteral : List Char → List Char → Option (List Char)
  | [], l => some l
  | p :: ps, c :: rest => if c = p then expectLiteral ps rest else none
  | _ :: _, [] => none

/-- Formats `%d-%m-%Y`, `%d/%m/%Y`, `%d.%m.%Y` (raw fields, full match). -/
def fmtNumSep (sep : Char) (l : List Char) : Option (Nat × Nat × Nat) := do
  let (d, r1) ← parseNum2 31 l
  let r2 ← expectChar sep r1
  let (m, r3) ← parseNum2 12 r2
  let r4 ← expectChar sep r3
  let (y, r5) ← parseYear4 r4
  if r5.isEmpty then some (y, m, d) else none

/-- Format `%Y-%m-%d` (raw fields, full match). -/
def fmtYMD (l : List Char) : Option (Nat × Nat × Nat) := do
  let (y, r1) ← parseYear4 l
  let r2 ← expectChar '-' r1
  let (m, r3) ← parseNum2 12 r2
  let r4 ← expectChar '-' r3
  let (d, r5) ← parseNum2 31 r4
  if r5.isEmpty then some (y, m, d) else none

/-- Formats `%B %d, %Y`, `%B %d %Y`, `%b %d %Y`, `%b %d, %Y` (month name
first, optional comma). -/
def fmtMonthFirst (names : List (List Char × Nat)) (comma : Bool) (l : List Char) :
    Option (Nat × Nat × Nat) := do
  let (m, r1) ← parseMonthName names l
  let r2 ← expectSpaces r1
  let (d, r3) ← parseNum2 31 r2
  let r4 ← if comma then expectChar ',' r3 else some r3
  let r5 ← expectSpaces r4
  let (y, r6) ← parseYear4 r5
  if r6.isEmpty then some (y, m, d) else none

/-- Formats `%d %B %Y` and `%d %b %Y` (day first, whitespace separators). -/
def fmtDayNameSp (names : List (List Char × Nat)) (l : List Char) :
    Option (Nat × Nat × Nat) := do
  let (d, r1) ← parseNum2 31 l
  let r2 ← expectSpaces r1
  let (m, r3) ← parseMonthName names r2
  let r4 ← expectSpaces r3
  let (y, r5) ← parseYear4 r4
  if r5.isEmpty then some (y, m, d) else none

/-- Formats `%d-%b-%Y` and `%d/%b/%Y` (day first, literal separators). -/
def fmtDayNameSep (names : List (List Char × Nat)) (sep : Char) (l : List Char) :
    Option (Nat × Nat × Nat) := do
  let (d, r1) ← parseNum2 31 l
  let r2 ← expectChar sep r1
  let (m, r3) ← parseMonthName names r2
  let r4 ← expectChar sep r3
  let (y, r5) ← parseYear4 r4
  if r5.isEmpty then some (y, m, d) else none

/-- The twelve formats of `parse_date`, in source order. -/
def formatParsers : List (List Char → Option (Nat × Nat × Nat)) :=
  [fmtNumSep '-', fmtNumSep '/', fmtYMD, fmtNumSep '.',
   fmtMonthFirst monthNamesFull true, fmtMonthFirst monthNamesFull false,
   fmtDayNameSp monthNamesFull, fmtDayNameSep monthNamesAbbr '-',
   fmtDayNameSp monthNamesAbbr, fmtMonthFirst monthNamesAbbr false,
   fmtDayNameSep monthNamesAbbr '/', fmtMonthFirst monthNamesAbbr true]

/-- The `strptime` loop of `parse_date`: try each format in order; a
regex failure or a `datetime` `ValueError` both continue with the next
format. -/
def runFormats : List (List Char → Option (Nat × Nat × Nat)) → List Char → Option PDate
  | [], _ => none
  | f :: fs, l =>
      match f l with
      | some (y, m, d) =>
          match mkDate y m d with
          | some dd => some dd
          | none => runFormats fs l
      | none => runFormats fs l

/-- Greedy run of digits with an accumulator. -/
def takeDigitsAux : List Char → Nat → Nat × List Char
  | c :: rest, acc =>
      if c.isDigit then takeDigitsAux rest (acc * 10 + digitVal c) else (acc, c :: rest)
  | [], acc => (acc, [])

/-- The `re.match(r'/Date\((\d+)\)/', s)` pattern: anchored at the start,
trailing input allowed. -/
def parseMsPattern (l : List Char) : Option Nat := do
  let r1 ← expectLiteral "/Date(".data l
  match r1 with
  | c :: rest =>
      if c.isDigit then
        let (v, r2) := takeDigitsAux rest (digitVal c)
        match expectLiteral ")/".data r2 with
        | some _ => some v
        | none => none
      else none
  | [] => none

/-- Civil date from days since the Unix epoch (Hinnant's algorithm),
used to model `datetime.fromtimestamp(...).date()` at UTC. -/
def civilFromDays (z0 : Nat) : Nat × Nat × Nat :=
  let z := z0 + 719468
  let era := z / 146097
  let doe := z % 146097
  let yoe := (doe - doe / 1460 + doe / 36524 - doe / 146096) / 365
  let y := yoe + era * 400
  let doy := doe - (365 * yoe + yoe / 4 - yoe / 100)
  let mp := (5 * doy + 2) / 153
  let d := doy - (153 * mp + 2) / 5 + 1
  let m := if mp < 10 then mp + 3 else mp - 9
  (if m ≤ 2 then y + 1 else y, m, d)

/-- The `/Date(ms)/` branch value: `datetime.fromtimestamp(ms / 1000.0)`
modelled at UTC; an out-of-range timestamp (beyond year 9999, where
`fromtimestamp` raises) yields `none`, which the caller's
`except Exception: pass` turns into falling through to the formats. -/
def msToDate (ms : Nat) : Option PDate :=
  if ms / 1000 / 86400 ≤ 2932896 then
    match civilFromDays (ms / 1000 / 86400) with
    | (y, m, d) => mkDate y m d
  else none

/-- Shallow embedding of `BaseSpider.parse_date`. -/
def parse_date (date_str : String) : Option PDate :=
  if date_str = "" then none
  else
    match parseMsPattern (pyStripChars date_str.data) with
    | some ms =>
        match msToDate ms with
        | some dd => some dd
        | none => runFormats formatParsers (pyStripChars date_str.data)
    | none => runFormats formatParsers (pyStripChars date_str.data)

/-! ### Claim-side predicates and concrete witness data -/

/-- Claim-side quality-gate predicate, written from the spec's wording:
true iff the text is empty, or the stripped length is below 200, or the
ratio of alphanumeric-or-whitespace characters to total characters of the
stripped text is below 0.4 (rendered exactly as `5 * clean < 2 * total`),
or the watermark token appears case-insensitively with stripped length
below 1000. -/
def needs_fallback_spec (t : String) : Prop :=
  t = "" ∨
  (pyStripChars t.data).length < 200 ∨
  5 * ((pyStripChars t.data).filter (fun ch => pyIsAlnum ch || pyIsSpaceChar ch)).length <
    2 * (pyStripChars t.data).length ∨
  (listContainsSub "camscanner".data ((pyStripChars t.data).map pyLowerChar) = true ∧
    (pyStripChars t.data).length < 1000)

/-- Absence of two adjacent spaces in a character list (whitespace runs
collapsed to single spaces). -/
def noDoubleSpace : List Char → Bool
  | c1 :: c2 :: rest => !(c1 == ' ' && c2 == ' ') && noDoubleSpace (c2 :: rest)
  | _ => true

/-- Concrete store state used to witness the purge claim. -/
def stC8 : DBState :=
  { regulations := [⟨1, "cid1", "FBR"⟩, ⟨2, "cid2", "SECP"⟩, ⟨3, "cid3", "FBR"⟩],
    analyses := [⟨10, 1⟩, ⟨11, 2⟩, ⟨12, 3⟩],
    pageHashes := [⟨"FBR:Income Tax", "h"⟩] }

/-! ## Theorems -/

/-! ### Digest shape lemmas -/

/-- The MD5 digest always consists of 16 bytes. -/
theorem md5Bytes_length (msg : List Nat) : (md5Bytes msg).length = 16 := by
  unfold md5Bytes
  rcases (chunks64 (md5Pad msg)).foldl
      (fun h ch => md5ProcessChunk h (bytesToWordsLE ch))
      (1732584193, 4023233417, 2562383102, 271733878) with ⟨a, b, c, d⟩
  simp [wordBytesLE]

/-- Hex rendering doubles the byte count. -/
theorem bytesHex_length (l : List Nat) : (bytesHex l).length = 2 * l.length := by
  show ((l.map byteHex).flatten).length = 2 * l.length
  induction l with
  | nil => rfl
  | cons b t ih =>
      simp only [List.map_cons, List.flatten_cons, List.length_append, List.length_cons, ih,
        byteHex, List.length_nil]
      omega

/-- Every hex digit of a value below 16 is a lowercase hex character. -/
theorem hexDigit_isHex : ∀ n < 16, isHexChar (hexDigit n) = true := by decide

/-- Both characters rendered for any byte are hex characters. -/
theorem byteHex_isHex (b : Nat) : ∀ c ∈ byteHex b, isHexChar c = true := by
  intro c hc
  have h1 : b / 16 % 16 < 16 := Nat.mod_lt _ (by norm_num)
  have h2 : b % 16 < 16 := Nat.mod_lt _ (by norm_num)
  simp only [byteHex, List.mem_cons, List.not_mem_nil, or_false] at hc
  rcases hc with rfl | rfl
  · exact hexDigit_isHex _ h1
  · exact hexDigit_isHex _ h2

/-- Every character of a hex digest is a lowercase hex character. -/
theorem bytesHex_chars (l : List Nat) : ∀ c ∈ (bytesHex l).data, isHexChar c = true := by
  intro c hc
  have hc' : c ∈ (l.map byteHex).flatten := hc
  rw [List.mem_flatten] at hc'
  obtain ⟨w, hw, hcw⟩ := hc'
  rw [List.mem_map] at hw
  obtain ⟨b, _, rfl⟩ := hw
  exact byteHex_isHex b c hcw

/-- An MD5 hex digest has 32 characters. -/
theorem md5Hex_length (msg : List Nat) : (md5Hex msg).length = 32 := by
  unfold md5Hex
  rw [bytesHex_length, md5Bytes_length]

/-! ### C1: identity generation is pure, fixed-length hex, with sentinel -/

/-- C1: for every source string, reference-number string, and optional
date, `generate_regulation_id` is a pure function of its arguments:
calling it twice yields the identical canonical id, the id is a
fixed-length (32-character) lowercase hexadecimal string, the `NODATE`
sentinel is used when the date is missing, and the spec's scenario input
yields its fixed hex string. -/
theorem C1_generate_regulation_id_pure_fixed_hex :
    ∀ (source ref_number : String) (date : Option String),
      generate_regulation_id source ref_number date =
        generate_regulation_id source ref_number date ∧
      (generate_regulation_id source ref_number date).length = 32 ∧
      (generate_regulation_id source ref_number date).data.all isHexChar = true ∧
      generate_regulation_id source ref_number none =
        md5Hex (strBytes (source ++ "_" ++ ref_number ++ "_NODATE")) ∧
      generate_regulation_id "FBR" "SRO 1437" (some "2025-07-01") =
        "fc23ef7e03572d63e1969a427458d903" := by
  intro source ref_number date
  refine ⟨rfl, md5Hex_length _, ?_, rfl, by decide⟩
  rw [List.all_eq_true]
  exact bytesHex_chars (md5Bytes (strBytes (joinedIdentifier source ref_number date)))

/-! ### C7: canonical ids are not injective on raw triples -/

/-- C7 counterexample: two distinct (source, reference, date) triples that
produce the same canonical id, because the underscore-joined identifier
strings coincide. -/
theorem C7_counterexample_distinct_triples_same_id :
    generate_regulation_id "A_B" "C" none = generate_regulation_id "A" "B_C" none ∧
    ("A_B", "C", (none : Option String)) ≠ ("A", "B_C", (none : Option String)) := by
  constructor
  · show md5Hex (strBytes (joinedIdentifier "A_B" "C" none)) =
      md5Hex (strBytes (joinedIdentifier "A" "B_C" none))
    have h : joinedIdentifier "A_B" "C" none = joinedIdentifier "A" "B_C" none := by decide
    rw [h]
  · decide

/-- C7 amended: the canonical id is determined by (and only by) the
underscore-joined identifier string — triples whose joined strings
coincide always share an id, so uniqueness holds at the level of the
joined identifier, not of raw triples. -/
theorem C7_amended_id_factors_through_identifier :
    ∀ (s1 r1 : String) (d1 : Option String) (s2 r2 : String) (d2 : Option String),
      joinedIdentifier s1 r1 d1 = joinedIdentifier s2 r2 d2 →
      generate_regulation_id s1 r1 d1 = generate_regulation_id s2 r2 d2 := by
  intro s1 r1 d1 s2 r2 d2 h
  unfold generate_regulation_id
  rw [h]

/-- C7 witness: the factoring theorem applied at a concrete collision. -/
theorem C7_amended_witness :
    joinedIdentifier "X_Y" "Z" none = joinedIdentifier "X" "Y_Z" none ∧
    generate_regulation_id "X_Y" "Z" none = generate_regulation_id "X" "Y_Z" none :=
  ⟨by decide, C7_amended_id_factors_through_identifier "X_Y" "Z" none "X" "Y_Z" none (by decide)⟩

/-! ### C2: repeated discovery vs. uniqueness conflict -/

/-- C2 counterexample: after a concurrent discovery has inserted the row,
the second `save_pdf` commit raises `IntegrityError` — it is an error, not
a successful no-op as the claim states. -/
theorem C2_counterexample_conflict_raises :
    regulation_exists "X" [] = false ∧
    save_pdf_commit "X" [] = Except.ok ["X"] ∧
    save_pdf_commit "X" ["X"] =
      Except.error "IntegrityError: UNIQUE constraint failed: regulations.regulation_id" :=
  ⟨rfl, rfl, rfl⟩

/-- C2 amended: sequential re-discovery of a stored id is a no-op via the
`regulation_exists` pre-check and never creates a second row (the unique
constraint keeps the count at one), but a uniqueness conflict on the
insert raises `IntegrityError` from the commit rather than completing as
a successful no-op. -/
theorem C2_amended_noop_by_precheck_conflict_raises :
    ∀ (rid : String) (db : List String),
      (regulation_exists rid db = true → process_item rid db = db) ∧
      process_item rid (process_item rid db) = process_item rid db ∧
      (regulation_exists rid db = true →
        save_pdf_commit rid db =
          Except.error "IntegrityError: UNIQUE constraint failed: regulations.regulation_id") ∧
      (db.count rid ≤ 1 → (process_item rid db).count rid ≤ 1) := by
  intro rid db
  by_cases h : db.contains rid
  · have hex : process_item rid db = db := by
      unfold process_item regulation_exists
      rw [if_pos h]
    refine ⟨fun _ => hex, by rw [hex, hex], fun _ => ?_, fun hc => by rwa [hex]⟩
    unfold save_pdf_commit
    rw [if_pos h]
  · have hnm : rid ∉ db := fun hm => h (List.elem_eq_true_of_mem hm)
    have hsave : process_item rid db = db ++ [rid] := by
      unfold process_item regulation_exists save_pdf_commit
      rw [if_neg h, if_neg h]
    have hmem2 : (db ++ [rid]).contains rid = true :=
      List.elem_eq_true_of_mem (by simp)
    have hre : ¬regulation_exists rid db = true := h
    refine ⟨fun hc => absurd hc hre, ?_, fun hc => absurd hc hre, ?_⟩
    · rw [hsave]
      unfold process_item regulation_exists
      rw [if_pos hmem2]
    · intro _
      rw [hsave, List.count_append]
      have hz : db.count rid = 0 := List.count_eq_zero.mpr hnm
      simp [hz]

/-- C2 witness: the amended theorem applied at a one-row store. -/
theorem C2_amended_witness :
    regulation_exists "W" ["W"] = true ∧
    process_item "W" ["W"] = ["W"] ∧
    save_pdf_commit "W" ["W"] =
      Except.error "IntegrityError: UNIQUE constraint failed: regulations.regulation_id" ∧
    (process_item "W" ["W"]).count "W" ≤ 1 :=
  ⟨rfl, (C2_amended_noop_by_precheck_conflict_raises "W" ["W"]).1 rfl,
   (C2_amended_noop_by_precheck_conflict_raises "W" ["W"]).2.2.1 rfl,
   (C2_amended_noop_by_precheck_conflict_raises "W" ["W"]).2.2.2 (by decide)⟩

/-! ### C5: partial-failure isolation in the run orchestrator -/

/-- Spider chain behaviour when the crawlers before position `i` succeed
and the one at position `i` fails: the chain stops there. -/
theorem run_spiders_model_break (pre post : List CrawlerRun) (c : CrawlerRun)
    (hpre : ∀ x ∈ pre, x.ok = true) (hc : c.ok = false) :
    run_spiders_model (pre ++ c :: post) =
      ((pre.map CrawlerRun.docs).sum + c.docs, pre.length + 1, true) := by
  induction pre with
  | nil => simp [run_spiders_model, hc]
  | cons x t ih =>
      have hx : x.ok = true := hpre x (by simp)
      have ht : ∀ y ∈ t, y.ok = true := fun y hy => hpre y (by simp [hy])
      have ihh : run_spiders_model (t.append (c :: post)) =
          ((t.map CrawlerRun.docs).sum + c.docs, t.length + 1, true) := ih ht
      simp only [List.cons_append, run_spiders_model, hx, if_true, ihh, List.map_cons,
        List.sum_cons, List.length_cons, Prod.mk.injEq]
      exact ⟨by omega, trivial⟩

/-- C5 counterexample: with crawler A persisting 1 document, crawler B
failing, and crawler C (which would persist 2) behind it, the run still
finalizes as success, but only 2 of the 3 crawlers are started and the
new-document count is 1, not the 1 + 2 attributable to the non-failing
sources A and C as the claim states. -/
theorem C5_counterexample_failing_crawler_skips_rest :
    scrape_regulations_model [⟨1, true⟩, ⟨0, false⟩, ⟨2, true⟩] = (1, "success") ∧
    (run_spiders_model [⟨1, true⟩, ⟨0, false⟩, ⟨2, true⟩]).2.1 = 2 ∧
    (scrape_regulations_model [⟨1, true⟩, ⟨0, false⟩, ⟨2, true⟩]).1 ≠ 1 + 2 := by
  refine ⟨rfl, rfl, by decide⟩

/-- C5 amended: a crawler failure inside the spider chain is caught by the
orchestrator's `try/except` and the run still finalizes with status
success, but the crawlers after the failing one in the fixed sequence are
skipped: the new-document count covers only the documents persisted up to
and including the failing crawler's partial work. -/
theorem C5_amended_failure_caught_but_chain_stops :
    ∀ (pre post : List CrawlerRun) (c : CrawlerRun),
      (∀ x ∈ pre, x.ok = true) → c.ok = false →
      scrape_regulations_model (pre ++ c :: post) =
        ((pre.map CrawlerRun.docs).sum + c.docs, "success") ∧
      (run_spiders_model (pre ++ c :: post)).2.1 = pre.length + 1 := by
  intro pre post c hpre hc
  have h := run_spiders_model_break pre post c hpre hc
  constructor
  · unfold scrape_regulations_model
    rw [h]
  · rw [h]

/-- C5 witness: the amended theorem applied at the concrete three-crawler
run. -/
theorem C5_amended_witness :
    scrape_regulations_model [⟨4, true⟩, ⟨0, false⟩, ⟨2, true⟩] = (4, "success") ∧
    (run_spiders_model [⟨4, true⟩, ⟨0, false⟩, ⟨2, true⟩]).2.1 = 2 :=
  C5_amended_failure_caught_but_chain_stops [⟨4, true⟩] [⟨2, true⟩] ⟨0, false⟩ (by decide) rfl

/-! ### C6: the change-detection digest is order-independent -/

/-- Sorting is invariant under permutation of the input: two lists with the
same elements sort to the same list. -/
theorem sortStrings_eq_of_perm (l1 l2 : List String) (h : l1.Perm l2) :
    sortStrings l1 = sortStrings l2 := by
  apply List.eq_of_perm_of_sorted (r := (· ≤ · : String → String → Prop))
  · exact ((List.perm_insertionSort _ l1).trans h).trans (List.perm_insertionSort _ l2).symm
  · exact List.sorted_insertionSort _ l1
  · exact List.sorted_insertionSort _ l2

/-- C6: `hash_urls` is order-independent — supplying the same identifiers
in any order yields the same digest, so reordering within a feed page
never falsely signals change. -/
theorem C6_hash_urls_order_independent :
    ∀ (l1 l2 : List String), l1.Perm l2 → hash_urls l1 = hash_urls l2 := by
  intro l1 l2 h
  unfold hash_urls
  rw [sortStrings_eq_of_perm l1 l2 h]

/-- C6 witness: `hash_of({a,b,c}) = hash_of({c,a,b})` via the theorem at a
concrete permutation. -/
theorem C6_witness :
    (["a", "b", "c"] : List String).Perm ["c", "a", "b"] ∧
    hash_urls ["a", "b", "c"] = hash_urls ["c", "a", "b"] :=
  ⟨by decide, C6_hash_urls_order_independent _ _ (by decide)⟩

/-! ### C3: the OCR quality gate matches its specification -/

/-- C3: `needs_ocr` returns true if and only if the spec's disjunction
holds: empty text, stripped length below 200, alphanumeric-or-whitespace
ratio below 0.4, or the scanner watermark with stripped length below
1000; in particular `needs_ocr "" = true`, and the gate passes whenever
all disjuncts fail. -/
theorem C3_needs_ocr_iff_spec :
    ∀ t : String, needs_ocr t = true ↔ needs_fallback_spec t := by
  intro t
  by_cases h0 : t = ""
  · simp [needs_ocr, needs_fallback_spec, h0]
  · by_cases h1 : (pyStripChars t.data).length < 200
    · simp [needs_ocr, needs_fallback_spec, h0, h1]
    · by_cases h2 : 5 * ((pyStripChars t.data).filter
          (fun ch => pyIsAlnum ch || pyIsSpaceChar ch)).length <
          2 * (pyStripChars t.data).length
      · simp [needs_ocr, needs_fallback_spec, h0, h1, h2]
      · by_cases h3a : listContainsSub "camscanner".data
            ((pyStripChars t.data).map pyLowerChar) = true
        · by_cases h3b : (pyStripChars t.data).length < 1000
          · simp [needs_ocr, needs_fallback_spec, h0, h1, h2, h3a, h3b]
          · simp [needs_ocr, needs_fallback_spec, h0, h1, h2, h3a, h3b]
        · simp [needs_ocr, needs_fallback_spec, h0, h1, h2, h3a]

/-! ### C4: extraction with OCR fallback -/

/-- C4: with fallback enabled, `extract_pdf_text` returns `none` only when
both the primary extraction and OCR produce nothing; if the quality gate
passes the (stripped) primary text is returned; if the gate triggers and
OCR returns non-empty text the OCR text is preferred; and if OCR produces
nothing the primary (possibly weak) text is returned. -/
theorem C4_extract_pdf_text_fallback_semantics :
    ∀ (primaryFails : Bool) (pages : List String) (ocr : Option String) (mc : Nat),
      (extract_pdf_text primaryFails pages ocr mc true = none ↔
        ((if primaryFails then "" else extract_primary_text pages mc) = "" ∧
          (ocr = none ∨ ocr = some ""))) ∧
      ((if primaryFails then "" else extract_primary_text pages mc) ≠ "" →
        needs_ocr (if primaryFails then "" else extract_primary_text pages mc) = false →
        extract_pdf_text primaryFails pages ocr mc true =
          some (pyStrip (if primaryFails then "" else extract_primary_text pages mc))) ∧
      (needs_ocr (if primaryFails then "" else extract_primary_text pages mc) = true →
        ∀ s, ocr = some s → s ≠ "" →
        extract_pdf_text primaryFails pages ocr mc true = some s) ∧
      (needs_ocr (if primaryFails then "" else extract_primary_text pages mc) = true →
        (ocr = none ∨ ocr = some "") →
        (if primaryFails then "" else extract_primary_text pages mc) ≠ "" →
        extract_pdf_text primaryFails pages ocr mc true =
          some (if primaryFails then "" else extract_primary_text pages mc)) := by
  intro primaryFails pages ocr mc
  simp only [extract_pdf_text]
  generalize (if primaryFails then "" else extract_primary_text pages mc) = F
  by_cases hga : F ≠ "" ∧ needs_ocr F = false
  · rw [if_pos hga]
    refine ⟨by simp [hga.1], fun _ _ => rfl, ?_, ?_⟩
    · intro hno
      rw [hga.2] at hno
      cases hno
    · intro hno
      rw [hga.2] at hno
      cases hno
  · rw [if_neg hga]
    have huse : ¬((true : Bool) = false) := by decide
    rw [if_neg huse]
    have hno : F = "" ∨ needs_ocr F = true := by
      by_cases hF0 : F = ""
      · exact Or.inl hF0
      · refine Or.inr ?_
        by_cases hn : needs_ocr F = true
        · exact hn
        · exact absurd ⟨hF0, by revert hn; cases needs_ocr F <;> simp⟩ hga
    rcases ocr with _ | s
    · refine ⟨?_, ?_, ?_, ?_⟩
      · by_cases hF0 : F = ""
        · subst hF0
          simp
        · simp [hF0]
      · intro h1 h2
        exact absurd ⟨h1, h2⟩ hga
      · intro _ s hs
        cases hs
      · intro _ _ hF0
        simp [hF0]
    · by_cases hs0 : s = ""
      · subst hs0
        refine ⟨?_, ?_, ?_, ?_⟩
        · by_cases hF0 : F = ""
          · subst hF0
            simp
          · simp [hF0]
        · intro h1 h2
          exact absurd ⟨h1, h2⟩ hga
        · intro _ s' hs' hne
          cases hs'
          exact absurd rfl hne
        · intro _ _ hF0
          simp [hF0]
      · refine ⟨?_, ?_, ?_, ?_⟩
        · simp [hs0]
        · intro h1 h2
          exact absurd ⟨h1, h2⟩ hga
        · intro _ s' hs' _
          cases hs'
          simp [hs0]
        · intro _ hor _
          rcases hor with h | h
          · cases h
          · cases h
            exact absurd rfl hs0

/-- C4 witness: the fallback theorem applied at the spec's scenario — a
short weak primary text, OCR empty — so the extractor returns the original
text, not null. -/
theorem C4_extract_witness :
    extract_pdf_text false ["short gibberish page ><#!"] none 12000 true =
      some (extract_primary_text ["short gibberish page ><#!"] 12000) ∧
    needs_ocr (extract_primary_text ["short gibberish page ><#!"] 12000) = true :=
  ⟨(C4_extract_pdf_text_fallback_semantics false ["short gibberish page ><#!"] none 12000).2.2.2
      (by decide) (Or.inl rfl) (by decide),
   by decide⟩

/-! ### C8: purge deletes children first and unblocks rediscovery -/

/-- C8: the purge utility deletes child `AnalysisResult` rows first — the
intermediate state keeps every regulation row and still satisfies
referential integrity — then the parent `Document` rows, all in one state
transition (one commit); afterwards no analysis references a purged row
id, no purged regulation remains, referential integrity is preserved, the
FBR change-detection records are gone (all records in reachable states,
since only the FBR spider writes them), and the change detector can never
skip a feed page. -/
theorem C8_purge_child_first_unblocks_rediscovery :
    ∀ (ids : List Nat) (st : DBState),
      (deleteAnalysesFor ids st).regulations = st.regulations ∧
      (analysesReferenceRegulations st →
        analysesReferenceRegulations (deleteAnalysesFor ids st)) ∧
      (∀ a ∈ (simulate_new_regulations_purge ids st).analyses,
        a.regulation_rowId ∉ ids) ∧
      (∀ r ∈ (simulate_new_regulations_purge ids st).regulations, r.rowId ∉ ids) ∧
      (analysesReferenceRegulations st →
        analysesReferenceRegulations (simulate_new_regulations_purge ids st)) ∧
      ((∀ p ∈ st.pageHashes, "FBR:".data.isPrefixOf p.page_url.data = true) →
        (simulate_new_regulations_purge ids st).pageHashes = []) ∧
      (∀ dept current,
        fbr_page_unchanged_skip dept current (simulate_new_regulations_purge ids st) = false) := by
  intro ids st
  have hana : (simulate_new_regulations_purge ids st).analyses =
      st.analyses.filter (fun a => !ids.contains a.regulation_rowId) := rfl
  have hreg : (simulate_new_regulations_purge ids st).regulations =
      st.regulations.filter (fun r => !ids.contains r.rowId) := rfl
  have hph : (simulate_new_regulations_purge ids st).pageHashes =
      st.pageHashes.filter (fun p => !("FBR:".data.isPrefixOf p.page_url.data)) := rfl
  have hnotmem : ∀ (n : Nat), (!ids.contains n) = true → n ∉ ids := by
    intro n hn hmem
    rw [Bool.not_eq_true'] at hn
    have h2 : ids.contains n = true := List.elem_eq_true_of_mem hmem
    rw [h2] at hn
    cases hn
  refine ⟨rfl, ?_, ?_, ?_, ?_, ?_, ?_⟩
  · intro hfk a ha
    have ha' := List.mem_filter.mp ha
    exact hfk a ha'.1
  · intro a ha
    rw [hana] at ha
    exact hnotmem _ (List.mem_filter.mp ha).2
  · intro r hr
    rw [hreg] at hr
    exact hnotmem _ (List.mem_filter.mp hr).2
  · intro hfk a ha
    rw [hana] at ha
    have ha' := List.mem_filter.mp ha
    obtain ⟨r, hr, heq⟩ := hfk a ha'.1
    refine ⟨r, ?_, heq⟩
    rw [hreg]
    refine List.mem_filter.mpr ⟨hr, ?_⟩
    rw [Bool.not_eq_true']
    have hnm : r.rowId ∉ ids := heq ▸ hnotmem _ ha'.2
    exact Bool.eq_false_iff.mpr (fun hcon => hnm (List.mem_of_elem_eq_true hcon))
  · intro hall
    rw [hph]
    refine List.filter_eq_nil_iff.mpr ?_
    intro p hp
    rw [Bool.not_eq_true', Bool.not_eq_false]
    exact hall p hp
  · intro dept current
    unfold fbr_page_unchanged_skip get_stored_hash
    cases hfind : (simulate_new_regulations_purge ids st).pageHashes.find?
        (fun p => p.page_url == ("FBR:" ++ dept)) with
    | none => rfl
    | some p =>
        exfalso
        have hkey := List.find?_some hfind
        simp only [beq_iff_eq] at hkey
        have hmem : p ∈ (simulate_new_regulations_purge ids st).pageHashes :=
          List.mem_of_find?_eq_some hfind
        rw [hph] at hmem
        have hpred := (List.mem_filter.mp hmem).2
        rw [Bool.not_eq_true'] at hpred
        rw [hkey] at hpred
        have : "FBR:".data.isPrefixOf ("FBR:" ++ dept).data = true := by
          have hd : ("FBR:" ++ dept).data = "FBR:".data ++ dept.data := rfl
          rw [hd, List.isPrefixOf_iff_prefix]
          exact List.prefix_append _ _
        rw [this] at hpred
        cases hpred

/-- C8 witness: the purge theorem applied at a concrete three-source store
with analyses attached and an FBR change-detection record. -/
theorem C8_purge_witness :
    analysesReferenceRegulations stC8 ∧
    (∀ p ∈ stC8.pageHashes, "FBR:".data.isPrefixOf p.page_url.data = true) ∧
    analysesReferenceRegulations (simulate_new_regulations_purge [1, 2] stC8) ∧
    (simulate_new_regulations_purge [1, 2] stC8).pageHashes = [] ∧
    fbr_page_unchanged_skip "Income Tax" "h" (simulate_new_regulations_purge [1, 2] stC8) = false :=
  ⟨by unfold analysesReferenceRegulations; decide, by decide,
   (C8_purge_child_first_unblocks_rediscovery [1, 2] stC8).2.2.2.2.1
     (by unfold analysesReferenceRegulations; decide),
   (C8_purge_child_first_unblocks_rediscovery [1, 2] stC8).2.2.2.2.2.1 (by decide),
   (C8_purge_child_first_unblocks_rediscovery [1, 2] stC8).2.2.2.2.2.2 "Income Tax" "h"⟩

/-! ### C9: text cleaning — helper lemmas -/

/-- The double-space-freedom of a list passes to its tail. -/
theorem noDoubleSpace_tail (x : Char) (xs : List Char)
    (h : noDoubleSpace (x :: xs) = true) : noDoubleSpace xs = true := by
  cases xs with
  | nil => rfl
  | cons y ys =>
      simp only [noDoubleSpace, Bool.and_eq_true] at h
      exact h.2

/-- Double-space-freedom passes to a right factor. -/
theorem noDoubleSpace_append_right (l r : List Char)
    (h : noDoubleSpace (l ++ r) = true) : noDoubleSpace r = true := by
  induction l with
  | nil => exact h
  | cons a t ih => exact ih (noDoubleSpace_tail a (t ++ r) h)

/-- Double-space-freedom passes to a left factor. -/
theorem noDoubleSpace_append_left (l r : List Char)
    (h : noDoubleSpace (l ++ r) = true) : noDoubleSpace l = true := by
  induction l with
  | nil => rfl
  | cons a t ih =>
      cases t with
      | nil => rfl
      | cons b t' =>
          simp only [List.cons_append, noDoubleSpace, Bool.and_eq_true] at h ⊢
          exact ⟨h.1, ih h.2⟩

/-- Double-space-freedom passes to any infix. -/
theorem noDoubleSpace_of_within (m l : List Char) (h : m <:+: l)
    (hl : noDoubleSpace l = true) : noDoubleSpace m = true := by
  obtain ⟨s, t, rfl⟩ := h
  rw [List.append_assoc] at hl
  exact noDoubleSpace_append_left m t (noDoubleSpace_append_right s (m ++ t) hl)

/-- The words produced by `str.split()` are nonempty, whitespace-free, and
drawn from the accumulator or the input. -/
theorem pySplitAux_sound : ∀ (l cur : List Char),
    (∀ c ∈ cur, pyIsSpaceChar c = false) →
    ∀ w ∈ pySplitAux l cur,
      w ≠ [] ∧ ∀ c ∈ w, pyIsSpaceChar c = false ∧ (c ∈ cur ∨ c ∈ l) := by
  intro l
  induction l with
  | nil =>
      intro cur hcur w hw
      simp only [pySplitAux] at hw
      by_cases hc : cur.isEmpty
      · rw [if_pos hc] at hw
        cases hw
      · rw [if_neg hc] at hw
        rw [List.mem_singleton] at hw
        subst hw
        refine ⟨?_, fun c hcw => ?_⟩
        · intro hnil
          rw [List.reverse_eq_nil_iff] at hnil
          rw [hnil] at hc
          exact hc rfl
        · rw [List.mem_reverse] at hcw
          exact ⟨hcur c hcw, Or.inl hcw⟩
  | cons c rest ih =>
      intro cur hcur w hw
      simp only [pySplitAux] at hw
      by_cases hsp : pyIsSpaceChar c = true
      · rw [if_pos hsp] at hw
        by_cases hc : cur.isEmpty
        · rw [if_pos hc] at hw
          have hres := ih [] (by intro x hx; cases hx) w hw
          refine ⟨hres.1, fun ch hch => ?_⟩
          have h2 := hres.2 ch hch
          refine ⟨h2.1, Or.inr ?_⟩
          rcases h2.2 with h | h
          · cases h
          · exact List.mem_cons_of_mem c h
        · rw [if_neg hc] at hw
          rcases List.mem_cons.mp hw with rfl | hw
          · refine ⟨?_, fun ch hch => ?_⟩
            · intro hnil
              rw [List.reverse_eq_nil_iff] at hnil
              rw [hnil] at hc
              exact hc rfl
            · rw [List.mem_reverse] at hch
              exact ⟨hcur ch hch, Or.inl hch⟩
          · have hres := ih [] (by intro x hx; cases hx) w hw
            refine ⟨hres.1, fun ch hch => ?_⟩
            have h2 := hres.2 ch hch
            refine ⟨h2.1, Or.inr ?_⟩
            rcases h2.2 with h | h
            · cases h
            · exact List.mem_cons_of_mem c h
      · rw [if_neg hsp] at hw
        have hspf : pyIsSpaceChar c = false := Bool.eq_false_iff.mpr hsp
        have hcur' : ∀ ch ∈ (c :: cur), pyIsSpaceChar ch = false := by
          intro ch hch
          rcases List.mem_cons.mp hch with rfl | hch
          · exact hspf
          · exact hcur ch hch
        have hres := ih (c :: cur) hcur' w hw
        refine ⟨hres.1, fun ch hch => ?_⟩
        have h2 := hres.2 ch hch
        refine ⟨h2.1, ?_⟩
        rcases h2.2 with h | h
        · rcases List.mem_cons.mp h with rfl | h
          · exact Or.inr (List.mem_cons_self ch rest)
          · exact Or.inl h
        · exact Or.inr (List.mem_cons_of_mem c h)

/-- Prepending a space-free word preserves double-space-freedom. -/
theorem noDoubleSpace_word_append (w l : List Char)
    (hw : ∀ c ∈ w, c ≠ ' ') (hl : noDoubleSpace l = true) :
    noDoubleSpace (w ++ l) = true := by
  induction w with
  | nil => exact hl
  | cons a t ih =>
      have ha : a ≠ ' ' := hw a (List.mem_cons_self a t)
      have ht : ∀ c ∈ t, c ≠ ' ' := fun c hc => hw c (List.mem_cons_of_mem a hc)
      have htail := ih ht
      rw [List.cons_append]
      cases hc : t ++ l with
      | nil => rfl
      | cons y ys =>
          simp only [noDoubleSpace, Bool.and_eq_true]
          refine ⟨by simp [ha], ?_⟩
          rw [hc] at htail
          exact htail

/-- Joining nonempty whitespace-free words with single spaces yields a
double-space-free list whose head is not whitespace and whose characters
are spaces or word characters. -/
theorem joinSpace_sound : ∀ (ws : List (List Char)),
    (∀ w ∈ ws, w ≠ [] ∧ ∀ c ∈ w, pyIsSpaceChar c = false) →
    noDoubleSpace (joinSpace ws) = true ∧
    (∀ c l, joinSpace ws = c :: l → pyIsSpaceChar c = false) ∧
    (∀ c ∈ joinSpace ws, c = ' ' ∨ ∃ w ∈ ws, c ∈ w) := by
  intro ws
  induction ws with
  | nil =>
      intro _
      refine ⟨rfl, fun c l heq => ?_, fun c hc => ?_⟩
      · cases heq
      · cases hc
  | cons w ws' ih =>
      intro h
      have hw := h w (List.mem_cons_self w ws')
      have hne : ∀ c ∈ w, c ≠ ' ' := by
        intro c hc hsp
        have hf := hw.2 c hc
        rw [hsp] at hf
        exact absurd hf (by decide)
      cases ws' with
      | nil =>
          have hj : joinSpace [w] = w := rfl
          rw [hj]
          refine ⟨?_, fun c l heq => ?_, fun c hc => ?_⟩
          · have := noDoubleSpace_word_append w [] hne rfl
            rwa [List.append_nil] at this
          · exact hw.2 c (by rw [heq]; exact List.mem_cons_self c l)
          · exact Or.inr ⟨w, List.mem_cons_self w [], hc⟩
      | cons x ws'' =>
          have hrest := ih (fun w' hw' => h w' (List.mem_cons_of_mem w hw'))
          have hj : joinSpace (w :: x :: ws'') = w ++ ' ' :: joinSpace (x :: ws'') := rfl
          rw [hj]
          have hmid : noDoubleSpace (' ' :: joinSpace (x :: ws'')) = true := by
            cases hjx : joinSpace (x :: ws'') with
            | nil => rfl
            | cons y ys =>
                simp only [noDoubleSpace, Bool.and_eq_true]
                constructor
                · have hy : pyIsSpaceChar y = false := hrest.2.1 y ys hjx
                  have hyne : y ≠ ' ' := by
                    intro he
                    rw [he] at hy
                    exact absurd hy (by decide)
                  simp [hyne]
                · rw [← hjx]
                  exact hrest.1
          refine ⟨noDoubleSpace_word_append w _ hne hmid, fun c l heq => ?_, fun c hc => ?_⟩
          · cases w with
            | nil => exact absurd rfl hw.1
            | cons a t =>
                rw [List.cons_append] at heq
                injection heq with h1 _
                exact h1 ▸ hw.2 a (List.mem_cons_self a t)
          · rw [List.mem_append] at hc
            rcases hc with hc | hc
            · exact Or.inr ⟨w, List.mem_cons_self w _, hc⟩
            · rcases List.mem_cons.mp hc with rfl | hc
              · exact Or.inl rfl
              · rcases hrest.2.2 c hc with hsp | ⟨w', hw', hcw⟩
                · exact Or.inl hsp
                · exact Or.inr ⟨w', List.mem_cons_of_mem w hw', hcw⟩

/-- Every character surviving the control-replacement step is either
non-control or one of the kept newline/tab characters. -/
theorem replaceCtrl_chars (l : List Char) :
    ∀ c ∈ replaceCtrl l, isCtrlChar c = false ∨ c = '\n' ∨ c = '\t' := by
  intro c hc
  rw [replaceCtrl, List.mem_map] at hc
  obtain ⟨x, _, rfl⟩ := hc
  by_cases h1 : keepNlTab x = true
  · rw [if_pos h1]
    simp only [keepNlTab, Bool.or_eq_true, beq_iff_eq, decide_eq_true_eq] at h1
    exact Or.inr h1
  · rw [if_neg h1]
    by_cases h2 : isCtrlChar x = true
    · rw [if_pos h2]
      exact Or.inl (by decide)
    · rw [if_neg h2]
      exact Or.inl (Bool.eq_false_iff.mpr h2)

/-- Stripping is an infix of the original list. -/
theorem pyStripChars_within (l : List Char) : pyStripChars l <:+: l :=
  ((List.rdropWhile_prefix _ _).isInfix).trans ((List.dropWhile_suffix _).isInfix)

/-- Core soundness of the cleaning pipeline on a character list: after
collapsing, truncating and stripping, the result fits the budget, has only
non-control characters, and has no two adjacent spaces. -/
theorem clean_pipeline_sound (l : List Char) (mc : Nat) :
    (pyStripChars (if (joinSpace (pySplit (replaceCtrl l))).length > mc
        then (joinSpace (pySplit (replaceCtrl l))).take mc
        else joinSpace (pySplit (replaceCtrl l)))).length ≤ mc ∧
    (∀ c ∈ pyStripChars (if (joinSpace (pySplit (replaceCtrl l))).length > mc
        then (joinSpace (pySplit (replaceCtrl l))).take mc
        else joinSpace (pySplit (replaceCtrl l))), 32 ≤ c.toNat ∧ c.toNat ≠ 127) ∧
    noDoubleSpace (pyStripChars (if (joinSpace (pySplit (replaceCtrl l))).length > mc
        then (joinSpace (pySplit (replaceCtrl l))).take mc
        else joinSpace (pySplit (replaceCtrl l)))) = true := by
  have hwords0 := pySplitAux_sound (replaceCtrl l) [] (fun c hc => absurd hc (List.not_mem_nil c))
  have hwords : ∀ w ∈ pySplit (replaceCtrl l), w ≠ [] ∧ ∀ c ∈ w, pyIsSpaceChar c = false :=
    fun w hw => ⟨(hwords0 w hw).1, fun c hc => ((hwords0 w hw).2 c hc).1⟩
  have hjoin := joinSpace_sound (pySplit (replaceCtrl l)) hwords
  have hcharJ : ∀ c ∈ joinSpace (pySplit (replaceCtrl l)), 32 ≤ c.toNat ∧ c.toNat ≠ 127 := by
    intro c hc
    rcases hjoin.2.2 c hc with rfl | ⟨w, hwmem, hcw⟩
    · exact ⟨by decide, by decide⟩
    · have hsp := ((hwords0 w hwmem).2 c hcw).1
      have hin : c ∈ replaceCtrl l := by
        rcases ((hwords0 w hwmem).2 c hcw).2 with h | h
        · cases h
        · exact h
      rcases replaceCtrl_chars l c hin with hctrl | h | h
      · have hsplit : ¬(c.toNat < 32) ∧ ¬(c.toNat = 127) := by
          constructor
          · intro hx
            simp [isCtrlChar, hx] at hctrl
          · intro hx
            simp [isCtrlChar, hx] at hctrl
        exact ⟨Nat.le_of_not_lt hsplit.1, hsplit.2⟩
      · subst h
        exact absurd hsp (by decide)
      · subst h
        exact absurd hsp (by decide)
  have hTmid : (if (joinSpace (pySplit (replaceCtrl l))).length > mc
      then (joinSpace (pySplit (replaceCtrl l))).take mc
      else joinSpace (pySplit (replaceCtrl l))) <:+: joinSpace (pySplit (replaceCtrl l)) := by
    by_cases hlen : (joinSpace (pySplit (replaceCtrl l))).length > mc
    · rw [if_pos hlen]
      exact (List.take_prefix mc _).isInfix
    · rw [if_neg hlen]
  have hTlen : (if (joinSpace (pySplit (replaceCtrl l))).length > mc
      then (joinSpace (pySplit (replaceCtrl l))).take mc
      else joinSpace (pySplit (replaceCtrl l))).length ≤ mc := by
    by_cases hlen : (joinSpace (pySplit (replaceCtrl l))).length > mc
    · rw [if_pos hlen, List.length_take]
      exact min_le_left _ _
    · rw [if_neg hlen]
      omega
  have hSmid := (pyStripChars_within (if (joinSpace (pySplit (replaceCtrl l))).length > mc
      then (joinSpace (pySplit (replaceCtrl l))).take mc
      else joinSpace (pySplit (replaceCtrl l)))).trans hTmid
  refine ⟨le_trans (pyStripChars_within _).length_le hTlen, ?_, ?_⟩
  · intro c hc
    exact hcharJ c (hSmid.sublist.subset hc)
  · exact noDoubleSpace_of_within _ _ hSmid hjoin.1

/-- C9: for every input string and budget, `clean_for_bedrock` returns a
string of length at most `max_chars` containing no newline, no tab, and no
other control character (every character has code at least 32 and not
127); whitespace runs, newlines and tabs included, are collapsed to single
spaces (no two adjacent spaces remain), even though the function's doc
comment says newlines and tabs are kept. -/
theorem C9_clean_for_bedrock_bounded_no_control :
    ∀ (text : String) (max_chars : Nat),
      (clean_for_bedrock text max_chars).length ≤ max_chars ∧
      (∀ c ∈ (clean_for_bedrock text max_chars).data, 32 ≤ c.toNat ∧ c.toNat ≠ 127) ∧
      '\n' ∉ (clean_for_bedrock text max_chars).data ∧
      '\t' ∉ (clean_for_bedrock text max_chars).data ∧
      noDoubleSpace (clean_for_bedrock text max_chars).data = true := by
  intro text mc
  by_cases h0 : text = ""
  · subst h0
    have hr : clean_for_bedrock "" mc = "" := rfl
    rw [hr]
    refine ⟨Nat.zero_le mc, fun c hc => ?_, fun hc => ?_, fun hc => ?_, rfl⟩
    · simp at hc
    · simp at hc
    · simp at hc
  · have hrw : clean_for_bedrock text mc =
        ⟨pyStripChars (if (joinSpace (pySplit (replaceCtrl text.data))).length > mc
          then (joinSpace (pySplit (replaceCtrl text.data))).take mc
          else joinSpace (pySplit (replaceCtrl text.data)))⟩ := by
      simp only [clean_for_bedrock, if_neg h0]
    rw [hrw]
    have hcore := clean_pipeline_sound text.data mc
    refine ⟨hcore.1, hcore.2.1, fun hc => ?_, fun hc => ?_, hcore.2.2⟩
    · exact absurd (hcore.2.1 '\n' hc).1 (by decide)
    · exact absurd (hcore.2.1 '\t' hc).1 (by decide)

/-- C9 witness: the cleaning theorem applied at a concrete string with
control characters, newlines, tabs and whitespace runs. -/
theorem C9_clean_witness :
    (clean_for_bedrock "  a\n\nb\tc  d  " 8000).length ≤ 8000 ∧
    '\n' ∉ (clean_for_bedrock "  a\n\nb\tc  d  " 8000).data ∧
    noDoubleSpace (clean_for_bedrock "  a\n\nb\tc  d  " 8000).data = true ∧
    32 ≤ ('a').toNat :=
  ⟨(C9_clean_for_bedrock_bounded_no_control "  a\n\nb\tc  d  " 8000).1,
   (C9_clean_for_bedrock_bounded_no_control "  a\n\nb\tc  d  " 8000).2.2.1,
   (C9_clean_for_bedrock_bounded_no_control "  a\n\nb\tc  d  " 8000).2.2.2.2,
   ((C9_clean_for_bedrock_bounded_no_control "  a\n\nb\tc  d  " 8000).2.1 'a' (by decide)).1⟩

/-! ### C10: date parsing is total and never raises -/

/-- A date produced by the validated constructor is valid. -/
theorem mkDate_valid (y m d : Nat) (dd : PDate) (h : mkDate y m d = some dd) :
    dateValid dd = true := by
  unfold mkDate at h
  split at h
  · cases h
    assumption
  · cases h

/-- Every date returned by the format loop went through `datetime`
validation. -/
theorem runFormats_valid : ∀ (fs : List (List Char → Option (Nat × Nat × Nat)))
    (l : List Char) (dd : PDate), runFormats fs l = some dd → dateValid dd = true := by
  intro fs
  induction fs with
  | nil =>
      intro l dd h
      cases h
  | cons f ft ih =>
      intro l dd h
      unfold runFormats at h
      split at h
      next y m d hf =>
        split at h
        next dd' hm =>
          cases h
          exact mkDate_valid y m d dd hm
        next hm => exact ih l dd h
      next hf => exact ih l dd h

/-- Every date produced from the epoch branch is valid. -/
theorem msToDate_valid (ms : Nat) (dd : PDate) (h : msToDate ms = some dd) :
    dateValid dd = true := by
  unfold msToDate at h
  split at h
  · rcases hciv : civilFromDays (ms / 1000 / 86400) with ⟨y, m, d⟩
    rw [hciv] at h
    exact mkDate_valid y m d dd h
  · cases h

/-- C10: `parse_date` is total and never raises — for every input string
it returns either a valid parsed calendar date or `None`; the empty string
and strings matching none of the known formats yield `None` rather than an
exception, and well-formed dates parse. -/
theorem C10_parse_date_total_or_none :
    (∀ s : String, parse_date s = none ∨ ∃ d, parse_date s = some d ∧ dateValid d = true) ∧
    parse_date "" = none ∧
    parse_date "not a date" = none ∧
    parse_date "01-02-2025" = some ⟨2025, 2, 1⟩ ∧
    parse_date "July 4, 2025" = some ⟨2025, 7, 4⟩ := by
  refine ⟨?_, rfl, by decide, by decide, by decide⟩
  intro s
  cases hp : parse_date s with
  | none => exact Or.inl rfl
  | some d =>
      refine Or.inr ⟨d, rfl, ?_⟩
      unfold parse_date at hp
      split at hp
      · cases hp
      · split at hp
        next ms hms =>
          split at hp
          next dd hmd =>
            cases hp
            exact msToDate_valid ms d hmd
          next hmd => exact runFormats_valid _ _ _ hp
        next hms => exact runFormats_valid _ _ _ hp
